import Mathlib

/-!
# Verification of the kitties pallet

Shallow embedding of `src/node/pallets/kitties/src/lib.rs`: a ledger-embedded
asset registry with operations `create`, `transfer`, `breed`, `sell`, `buy`.
Storage maps are embedded as functions `Nat → Option _`; the host's
reservable-balance primitive and its per-call transactional rollback are
modelled from the spec (they live in the host runtime, not in this pallet).
Machine integers are modelled as `Nat`; the one unchecked fixed-width addition
(the sufficiency check in `buy`) is taken modulo `2 ^ balanceBits`.
-/

namespace Kitties

abbrev AccountId := Nat
abbrev KittyIndex := Nat
abbrev Balance := Nat

/-- A kitty genome: the embedding of the `[u8;16]` dna array as a list of bytes. -/
abbrev Dna := List Nat

/-- The pallet's error enum, from `#[pallet::error] pub enum Error`, plus
`TransferBelowMinimum`, the failure of the host's `Currency::transfer`
(propagated by `?` in `buy`; named as in the spec's error taxonomy §7). -/
inductive KittyError where
  | KittiesCountOverflow
  | NotOwner
  | SameParentIndex
  | InvalidKittyIndex
  | BuyerIsOwner
  | NotForSale
  | NotEnoughBalanceForStaking
  | NotEnoughBalanceForBuying
  | TransferBelowMinimum
  deriving DecidableEq, Repr

/-- How a dispatched call can fail to produce a new state: either a returned
error value (`DispatchResult::Err`), or a Rust panic — an unrecoverable fault,
such as `Option::unwrap` on `None` — which is not a returned error. -/
inductive Failure where
  | err (e : KittyError)
  | panicked
  deriving DecidableEq, Repr

/-- Host-configurable constants of the pallet's `Config` trait: the per-kitty
stake `StakeForEachKitty`, the bound `KittyIndex::max_value()`, the host
currency's existential deposit, and the bit width of the `Balance` type. -/
structure Params where
  stakeForEachKitty : Balance
  kittyIndexMax : KittyIndex
  existentialDeposit : Balance
  balanceBits : Nat

/-- The full observable state: the pallet's four storage items plus the host
balance ledger (free and reserved balance per account).

`Kitties`, `ListForSale` and `Owner` are `StorageMap`s whose value type is an
`Option`, declared with `ValueQuery` (default `None` for an absent entry); the
outer `Option` below records entry presence, the inner value is what is stored. -/
structure Chain where
  kittiesCount : Option KittyIndex
  kitties : KittyIndex → Option Dna
  listForSale : KittyIndex → Option (Option Balance)
  owner : KittyIndex → Option AccountId
  free : AccountId → Balance
  reserved : AccountId → Balance

/-- Point update of a storage map, the embedding of `StorageMap::insert`
(and of `remove`, passing `none`). -/
def upd {α : Type} (f : Nat → α) (k : Nat) (v : α) : Nat → α :=
  fun j => if j = k then v else f j

/-- What `ListForSale::<T>::get(id)` returns: the stored `Option<Balance>` if
an entry is present, `None` (the `ValueQuery` default) otherwise. -/
def getListing (c : Chain) (id : KittyIndex) : Option Balance :=
  (c.listForSale id).join

/-- What `Owner::<T>::get(id)` returns. -/
def getOwner (c : Chain) (id : KittyIndex) : Option AccountId :=
  c.owner id

namespace Currency

/-- Modelled from the spec: the host's reservable-balance primitive
`reserve(account, amount)` moves `amount` from free to reserved balance and
fails exactly when the free balance cannot cover the amount (§4.4, §6). -/
def reserve (who : AccountId) (amount : Balance) (c : Chain) : Option Chain :=
  if amount ≤ c.free who then
    some { c with
      free := upd c.free who (c.free who - amount),
      reserved := upd c.reserved who (c.reserved who + amount) }
  else none

/-- Modelled from the spec: the host's `unreserve(account, amount)` release
primitive; infallible, it moves back at most what is actually reserved (§4.4). -/
def unreserve (who : AccountId) (amount : Balance) (c : Chain) : Chain :=
  let m := min amount (c.reserved who)
  { c with
    free := upd c.free who (c.free who + m),
    reserved := upd c.reserved who (c.reserved who - m) }

/-- Modelled from the spec: the host's `transfer(from, to, amount, KeepAlive)`
primitive; fails with `TransferBelowMinimum` unless the sender can pay `amount`
and keep at least the existential deposit afterwards (§4.5, §6, §7). -/
def transfer (p : Params) (src dst : AccountId) (amount : Balance) (c : Chain) :
    Except Failure Chain :=
  if amount ≤ c.free src ∧ p.existentialDeposit ≤ c.free src - amount then
    let f1 := upd c.free src (c.free src - amount)
    .ok { c with free := upd f1 dst (f1 dst + amount) }
  else .error (.err .TransferBelowMinimum)

end Currency

/-- The id allocation at the head of `new_kitty_with_stake`: read
`KittiesCount`, fail with `KittiesCountOverflow` at `KittyIndex::max_value()`,
start from 0 when the count was never written. -/
def allocate_id (p : Params) (c : Chain) : Except Failure KittyIndex :=
  match c.kittiesCount with
  | some id =>
      if id = p.kittyIndexMax then .error (.err .KittiesCountOverflow)
      else .ok id
  | none => .ok 0

/-- The helper `new_kitty_with_stake(owner, dna)`: read `KittiesCount` and
check it against `KittyIndex::max_value()`, reserve the stake from the owner,
then write the genome, the owner and the advanced count. -/
def new_kitty_with_stake (p : Params) (who : AccountId) (dna : Dna) (c : Chain) :
    Except Failure Chain :=
  match allocate_id p c with
  | .error e => .error e
  | .ok kitty_id =>
    match Currency.reserve who p.stakeForEachKitty c with
    | none => .error (.err .NotEnoughBalanceForStaking)
    | some c1 =>
      .ok { c1 with
        kitties := upd c1.kitties kitty_id (some dna),
        owner := upd c1.owner kitty_id (some who),
        kittiesCount := some (kitty_id + 1) }

/-- The `create` extrinsic. The genome, derived by `random_value` from
host-supplied entropy, enters as the explicit argument `dna`. -/
def create (p : Params) (who : AccountId) (dna : Dna) (c : Chain) :
    Except Failure Chain :=
  new_kitty_with_stake p who dna c

/-- The `transfer` extrinsic: only the owner may transfer; stake is reserved
from the new owner, then released from the previous owner, then the owner map
is updated. The listing map is not touched. -/
def transfer (p : Params) (who new_owner : AccountId) (kitty_id : KittyIndex)
    (c : Chain) : Except Failure Chain :=
  if some who = getOwner c kitty_id then
    match Currency.reserve new_owner p.stakeForEachKitty c with
    | none => .error (.err .NotEnoughBalanceForStaking)
    | some c1 =>
      let c2 := Currency.unreserve who p.stakeForEachKitty c1
      .ok { c2 with owner := upd c2.owner kitty_id (some new_owner) }
  else .error (.err .NotOwner)

/-- The dna-combining loop in `breed`: for each byte position `i` in `0..16`,
`new_dna[i] = (selector[i] & dna_1[i]) | (!selector[i] & dna_2[i])`, where `!`
is bitwise complement on `u8`, embedded as xor with `255`. -/
def breed_dna (dna_1 dna_2 selector : Dna) : Dna :=
  (List.range 16).map fun i =>
    (selector.getD i 0 &&& dna_1.getD i 0) |||
      ((255 ^^^ selector.getD i 0) &&& dna_2.getD i 0)

/-- The `breed` extrinsic: distinct parents must both exist; their genomes are
combined with the random `selector`, then the mint sequence runs. -/
def breed (p : Params) (who : AccountId) (kitty_id_1 kitty_id_2 : KittyIndex)
    (selector : Dna) (c : Chain) : Except Failure Chain :=
  if kitty_id_1 = kitty_id_2 then .error (.err .SameParentIndex)
  else
    match c.kitties kitty_id_1 with
    | none => .error (.err .InvalidKittyIndex)
    | some dna_1 =>
      match c.kitties kitty_id_2 with
      | none => .error (.err .InvalidKittyIndex)
      | some dna_2 =>
        new_kitty_with_stake p who (breed_dna dna_1 dna_2 selector) c

/-- The `sell` extrinsic: only the owner may list; `mutate_exists` writes the
entry `Some(price)` (where `price = None` means not for sale). -/
def sell (who : AccountId) (kitty_id : KittyIndex) (price : Option Balance)
    (c : Chain) : Except Failure Chain :=
  if some who = getOwner c kitty_id then
    .ok { c with listForSale := upd c.listForSale kitty_id (some price) }
  else .error (.err .NotOwner)

/-- The `buy` extrinsic, step for step as in the source: `Owner::get(id).unwrap()`
(a panic — not a returned error — when no owner entry exists), the
buyer-is-owner check, the listing lookup, the sufficiency check
`buyer_balance > amount + stake_amount` with the sum computed in fixed-width
`Balance` arithmetic, the stake reservation and release, the payment transfer,
then the listing removal and owner update. -/
def buy (p : Params) (buyer : AccountId) (kitty_id : KittyIndex) (c : Chain) :
    Except Failure Chain :=
  match getOwner c kitty_id with
  | none => .error .panicked
  | some owner =>
    if buyer = owner then .error (.err .BuyerIsOwner)
    else
      match getListing c kitty_id with
      | none => .error (.err .NotForSale)
      | some amount =>
        if c.free buyer > (amount + p.stakeForEachKitty) % 2 ^ p.balanceBits then
          match Currency.reserve buyer p.stakeForEachKitty c with
          | none => .error (.err .NotEnoughBalanceForStaking)
          | some c1 =>
            let c2 := Currency.unreserve owner p.stakeForEachKitty c1
            match Currency.transfer p buyer owner amount c2 with
            | .error e => .error e
            | .ok c3 =>
              .ok { c3 with
                listForSale := upd c3.listForSale kitty_id none,
                owner := upd c3.owner kitty_id (some buyer) }
        else .error (.err .NotEnoughBalanceForBuying)

/-- Modelled from the spec: the host dispatches one extrinsic as an atomic
unit — on success the produced state is committed, on any failure every
storage mutation of the call is rolled back (§5). -/
def dispatch (op : Chain → Except Failure Chain) (c : Chain) :
    Chain × Option Failure :=
  match op c with
  | .ok c1 => (c1, none)
  | .error e => (c, some e)

/-- The registry's cross-map consistency: owner and genome entries exist for
exactly the same ids, and listing entries only for ids with a genome. -/
def Consistent (c : Chain) : Prop :=
  (∀ id, (c.owner id).isSome ↔ (c.kitties id).isSome) ∧
  (∀ id, (c.listForSale id).isSome → (c.kitties id).isSome)

/-- Genesis state: empty registry, arbitrary host balances. -/
def initChain (free reserved : AccountId → Balance) : Chain :=
  { kittiesCount := none
    kitties := fun _ => none
    listForSale := fun _ => none
    owner := fun _ => none
    free := free
    reserved := reserved }

/-- States reachable from genesis by successful extrinsics (a failed extrinsic
leaves the state unchanged under `dispatch`, hence adds no new state). -/
inductive Reachable (p : Params) : Chain → Prop where
  | init (free reserved : AccountId → Balance) :
      Reachable p (initChain free reserved)
  | step_create (c c1 : Chain) (who : AccountId) (dna : Dna) :
      Reachable p c → create p who dna c = .ok c1 → Reachable p c1
  | step_transfer (c c1 : Chain) (who new_owner : AccountId) (kitty_id : KittyIndex) :
      Reachable p c → transfer p who new_owner kitty_id c = .ok c1 → Reachable p c1
  | step_breed (c c1 : Chain) (who : AccountId) (id1 id2 : KittyIndex) (sel : Dna) :
      Reachable p c → breed p who id1 id2 sel c = .ok c1 → Reachable p c1
  | step_sell (c c1 : Chain) (who : AccountId) (kitty_id : KittyIndex)
      (price : Option Balance) :
      Reachable p c → sell who kitty_id price c = .ok c1 → Reachable p c1
  | step_buy (c c1 : Chain) (buyer : AccountId) (kitty_id : KittyIndex) :
      Reachable p c → buy p buyer kitty_id c = .ok c1 → Reachable p c1

/-! ## Concrete instances used by witnesses and counterexamples -/

/-- A concrete parameter choice: stake 100, `u32` id space, existential
deposit 2, 128-bit balances. -/
def p0 : Params :=
  { stakeForEachKitty := 100
    kittyIndexMax := 4294967295
    existentialDeposit := 2
    balanceBits := 128 }

/-- A genesis state where every account has free balance 1000. -/
def cEmpty : Chain := initChain (fun _ => 1000) (fun _ => 0)

/-- Concrete parent genome. -/
def dnaA : Dna := [12, 34, 56, 78, 90, 255, 0, 1, 2, 3, 4, 5, 6, 7, 8, 9]

/-- Concrete parent genome. -/
def dnaB : Dna := [200, 100, 50, 25, 12, 6, 3, 1, 255, 128, 64, 32, 16, 8, 4, 2]

/-- Concrete breeding selector. -/
def selW : Dna := [15, 240, 170, 85, 0, 255, 1, 2, 3, 4, 5, 6, 7, 8, 9, 10]

/-- A price so close to `2 ^ 128` that adding the stake wraps the sum to zero. -/
def priceWrap : Balance := 2 ^ 128 - 100

/-- One kitty (id 0) owned by account 1 and listed at `priceWrap`; account 2
holds free balance 150, far below the price. -/
def cWrap : Chain :=
  { kittiesCount := some 1
    kitties := upd (fun _ => none) 0 (some (List.replicate 16 0))
    listForSale := upd (fun _ => none) 0 (some (some priceWrap))
    owner := upd (fun _ => none) 0 (some 1)
    free := fun a => if a = 2 then 150 else 0
    reserved := fun a => if a = 1 then 100 else 0 }

/-! ## C1 — a buy of an unregistered asset panics instead of returning an error -/

/-- C1: for an asset id with no owner entry, `buy` does not return an error
value: `Owner::get(kitty_id).unwrap()` panics on `None`, an unrecoverable
fault. Evaluated at the genesis state and id 0. -/
theorem buy_unknown_asset_panics :
    buy p0 1 0 cEmpty = Except.error Failure.panicked := rfl

/-! ## C2 — the breeding combinator is bit-exact -/

/-- C2: for all parent genomes and selectors, every byte `i < 16` of the bred
genome equals `(selector[i] AND dna1[i]) OR (NOT selector[i] AND dna2[i])`,
with NOT the 8-bit complement. -/
theorem breed_dna_bit_exact (dna_1 dna_2 selector : Dna) (i : Nat) (hi : i < 16) :
    (breed_dna dna_1 dna_2 selector).getD i 0 =
      (selector.getD i 0 &&& dna_1.getD i 0) |||
        ((255 ^^^ selector.getD i 0) &&& dna_2.getD i 0) := by
  unfold breed_dna
  rw [List.getD_eq_getElem?_getD, List.getElem?_map, List.getElem?_range hi]
  rfl

/-- Witness for C2 at concrete genomes, selector, and byte position 3. -/
theorem breed_dna_bit_exact_witness :
    3 < 16 ∧
    (breed_dna dnaA dnaB selW).getD 3 0 =
      (selW.getD 3 0 &&& dnaA.getD 3 0) |||
        ((255 ^^^ selW.getD 3 0) &&& dnaB.getD 3 0) :=
  ⟨by decide, breed_dna_bit_exact dnaA dnaB selW 3 (by decide)⟩

/-! ## C10 — the sufficiency check in buy wraps around -/

/-- C10: with 128-bit wrap-around addition, the check
`buyer_balance > amount + stake_amount` passes at `cWrap` although the buyer's
free balance (150) is far below the price: the sum wraps to 0. The call then
runs past the `NotEnoughBalanceForBuying` gate and dies only at the payment
transfer. -/
theorem buy_balance_check_wraps :
    cWrap.free 2 > (priceWrap + p0.stakeForEachKitty) % 2 ^ p0.balanceBits ∧
    cWrap.free 2 < priceWrap ∧
    buy p0 2 0 cWrap = Except.error (Failure.err .TransferBelowMinimum) :=
  ⟨by decide, by decide, rfl⟩

/-! ## C3 — mint and breed are atomic when the stake reservation fails -/

/-- Helper: when the count gate passes but the owner cannot cover the stake,
`new_kitty_with_stake` returns the insufficient-stake error. -/
theorem new_kitty_stake_failure (p : Params) (who : AccountId) (dna : Dna)
    (c : Chain)
    (hcount : ∀ id, c.kittiesCount = some id → id ≠ p.kittyIndexMax)
    (hfree : c.free who < p.stakeForEachKitty) :
    new_kitty_with_stake p who dna c =
      .error (.err .NotEnoughBalanceForStaking) := by
  have hle : ¬ p.stakeForEachKitty ≤ c.free who := Nat.not_le.mpr hfree
  unfold new_kitty_with_stake allocate_id Currency.reserve
  cases hc : c.kittiesCount with
  | none => simp [hle]
  | some id => simp [hcount id hc, hle]

/-- C3: whenever the stake reservation fails during `create` or `breed`
(the id-space gate having passed, and for `breed` both parents existing and
being distinct), the call returns `NotEnoughBalanceForStaking` and the
dispatched state is exactly the pre-call state: no genome or owner entry is
written and `KittiesCount` is not advanced. -/
theorem create_breed_stake_failure_atomic (p : Params) (who : AccountId)
    (dna : Dna) (c : Chain)
    (hcount : ∀ id, c.kittiesCount = some id → id ≠ p.kittyIndexMax)
    (hfree : c.free who < p.stakeForEachKitty) :
    (create p who dna c = .error (.err .NotEnoughBalanceForStaking) ∧
      (dispatch (create p who dna) c).1 = c) ∧
    (∀ id1 id2 sel, id1 ≠ id2 →
      (c.kitties id1).isSome → (c.kitties id2).isSome →
      breed p who id1 id2 sel c = .error (.err .NotEnoughBalanceForStaking) ∧
        (dispatch (breed p who id1 id2 sel) c).1 = c) := by
  have hcr : create p who dna c = .error (.err .NotEnoughBalanceForStaking) :=
    new_kitty_stake_failure p who dna c hcount hfree
  refine ⟨⟨hcr, by simp [dispatch, hcr]⟩, ?_⟩
  intro id1 id2 sel hne h1 h2
  rcases Option.isSome_iff_exists.mp h1 with ⟨k1, hk1⟩
  rcases Option.isSome_iff_exists.mp h2 with ⟨k2, hk2⟩
  have hbr : breed p who id1 id2 sel c =
      .error (.err .NotEnoughBalanceForStaking) := by
    unfold breed
    rw [if_neg hne, hk1, hk2]
    exact new_kitty_stake_failure p who _ c hcount hfree
  exact ⟨hbr, by simp [dispatch, hbr]⟩

/-- Witness for C3: account 3 has free balance 50, below the stake of 100. -/
def cPoor : Chain := initChain (fun a => if a = 3 then 50 else 1000) (fun _ => 0)

/-- Witness for C3 at the concrete state `cPoor`: creating as the poor
account 3 fails with the stake error and leaves the state unchanged. -/
theorem create_breed_stake_failure_atomic_witness :
    create p0 3 dnaA cPoor = .error (.err .NotEnoughBalanceForStaking) ∧
      (dispatch (create p0 3 dnaA) cPoor).1 = cPoor :=
  (create_breed_stake_failure_atomic p0 3 dnaA cPoor
    (by intro id h; simp [cPoor, initChain] at h) (by decide)).1

/-! ## C4 — buy is atomic when the payment transfer fails -/

/-- C4: a `buy` that passes every gate and the stake reservation but whose
payment transfer fails returns `TransferBelowMinimum`, and the dispatched
state is exactly the pre-call state: the buyer's reservation and the seller's
release are rolled back and the registry is untouched (host rollback, §5). -/
theorem buy_payment_failure_atomic (p : Params) (buyer seller : AccountId)
    (kitty_id : KittyIndex) (amount : Balance) (c : Chain)
    (hown : getOwner c kitty_id = some seller) (hne : buyer ≠ seller)
    (hlist : getListing c kitty_id = some amount)
    (hcheck : c.free buyer > (amount + p.stakeForEachKitty) % 2 ^ p.balanceBits)
    (hres : p.stakeForEachKitty ≤ c.free buyer)
    (htf : ¬ (amount ≤ c.free buyer - p.stakeForEachKitty ∧
      p.existentialDeposit ≤ c.free buyer - p.stakeForEachKitty - amount)) :
    buy p buyer kitty_id c = .error (.err .TransferBelowMinimum) ∧
      (dispatch (buy p buyer kitty_id) c).1 = c := by
  have hbuy : buy p buyer kitty_id c = .error (.err .TransferBelowMinimum) := by
    unfold buy
    rw [hown]
    dsimp only
    rw [if_neg hne, hlist]
    dsimp only
    rw [if_pos hcheck]
    unfold Currency.reserve
    rw [if_pos hres]
    dsimp only
    unfold Currency.transfer Currency.unreserve
    dsimp only [upd]
    simp only [if_neg hne, if_neg (Ne.symm hne), eq_self_iff_true, if_true]
    rw [if_neg htf]
  exact ⟨hbuy, by simp [dispatch, hbuy]⟩

/-- Concrete input for C4: kitty 0 owned by 1, listed at 1000; buyer 2 has
free balance 1101, enough for the check and the stake, but after reserving
the stake the payment would leave less than the existential deposit. -/
def cPay : Chain :=
  { kittiesCount := some 1
    kitties := upd (fun _ => none) 0 (some dnaA)
    listForSale := upd (fun _ => none) 0 (some (some 1000))
    owner := upd (fun _ => none) 0 (some 1)
    free := fun a => if a = 2 then 1101 else 10
    reserved := fun a => if a = 1 then 100 else 0 }

/-- Witness for C4 at the concrete state `cPay`. -/
theorem buy_payment_failure_atomic_witness :
    buy p0 2 0 cPay = .error (.err .TransferBelowMinimum) ∧
      (dispatch (buy p0 2 0) cPay).1 = cPay :=
  buy_payment_failure_atomic p0 2 1 0 1000 cPay rfl (by decide) rfl
    (by decide) (by decide) (by decide)

/-! ## C5 — buy and the sale listing -/

/-- Counterexample input for C5: kitty 0 owned by account 1 with no listing
entry at all. -/
def c5x : Chain :=
  { kittiesCount := some 1
    kitties := upd (fun _ => none) 0 (some dnaB)
    listForSale := fun _ => none
    owner := upd (fun _ => none) 0 (some 1)
    free := fun _ => 1000
    reserved := fun a => if a = 1 then 100 else 0 }

/-- Counterexample to C5 as stated: a buy on an asset whose listing is absent
does not always fail with `NotForSale` — when the caller is the owner it fails
with `BuyerIsOwner`, because the buyer-is-owner check runs first. -/
theorem buy_notforsale_counterexample :
    getListing c5x 0 = none ∧
    buy p0 1 0 c5x = .error (.err .BuyerIsOwner) ∧
    ¬ buy p0 1 0 c5x = .error (.err .NotForSale) := by
  refine ⟨rfl, rfl, ?_⟩
  intro h
  rw [show buy p0 1 0 c5x = .error (.err .BuyerIsOwner) from rfl] at h
  injection h with h1
  exact absurd h1 (by decide)

/-- C5 (amended): every successful buy clears the listing and makes the buyer
the owner; and a buy on an asset whose listing is absent, whose owner is
recorded and differs from the buyer, fails with `NotForSale` and leaves the
dispatched state unchanged. -/
theorem buy_listing_behavior (p : Params) (buyer : AccountId)
    (kitty_id : KittyIndex) (c : Chain) :
    (∀ c1, buy p buyer kitty_id c = .ok c1 →
      getListing c1 kitty_id = none ∧ c1.owner kitty_id = some buyer) ∧
    (getListing c kitty_id = none →
      ∀ ow, getOwner c kitty_id = some ow → buyer ≠ ow →
        buy p buyer kitty_id c = .error (.err .NotForSale) ∧
          (dispatch (buy p buyer kitty_id) c).1 = c) := by
  constructor
  · intro c1 h
    unfold buy at h
    repeat' split at h
    all_goals try simp_all [getListing, upd]
    split at h
    · simp_all
    · injection h with h1
      subst h1
      simp [upd]
  · intro hlist ow hown hne
    have hbuy : buy p buyer kitty_id c = .error (.err .NotForSale) := by
      unfold buy
      rw [hown]
      dsimp only
      rw [if_neg hne, hlist]
    exact ⟨hbuy, by simp [dispatch, hbuy]⟩

/-- Witness input for C5: kitty 0 owned by account 1, unlisted, buyer 2. -/
def c5w : Chain :=
  { kittiesCount := some 1
    kitties := upd (fun _ => none) 0 (some dnaB)
    listForSale := fun _ => none
    owner := upd (fun _ => none) 0 (some 1)
    free := fun _ => 1000
    reserved := fun a => if a = 1 then 100 else 0 }

/-- Witness for C5 (amended) at the concrete state `c5w`. -/
theorem buy_listing_behavior_witness :
    buy p0 2 0 c5w = .error (.err .NotForSale) ∧
      (dispatch (buy p0 2 0) c5w).1 = c5w :=
  (buy_listing_behavior p0 2 0 c5w).2 rfl 1 rfl (by decide)

/-! ## C6 — the sufficiency check in buy is strict -/

/-- C6: for a buy of an asset listed at `amount` (no overflow in
`amount + stake`), success requires the buyer's free balance to strictly
exceed `amount + stake`; when it is less than or equal (owner recorded,
buyer not the owner), the call fails with `NotEnoughBalanceForBuying`. -/
theorem buy_strict_balance_check (p : Params) (buyer : AccountId)
    (kitty_id : KittyIndex) (amount : Balance) (c : Chain)
    (hlist : getListing c kitty_id = some amount)
    (hnw : amount + p.stakeForEachKitty < 2 ^ p.balanceBits) :
    (∀ c1, buy p buyer kitty_id c = .ok c1 →
      amount + p.stakeForEachKitty < c.free buyer) ∧
    (c.free buyer ≤ amount + p.stakeForEachKitty →
      ∀ ow, getOwner c kitty_id = some ow → buyer ≠ ow →
        buy p buyer kitty_id c = .error (.err .NotEnoughBalanceForBuying)) := by
  have hmod : (amount + p.stakeForEachKitty) % 2 ^ p.balanceBits
      = amount + p.stakeForEachKitty := Nat.mod_eq_of_lt hnw
  constructor
  · intro c1 h
    rcases Nat.lt_or_ge (amount + p.stakeForEachKitty) (c.free buyer) with hlt | hge
    · exact hlt
    · exfalso
      have hnot : ¬ c.free buyer > (amount + p.stakeForEachKitty) % 2 ^ p.balanceBits := by
        rw [hmod]; exact Nat.not_lt.mpr hge
      unfold buy at h
      cases hq : getOwner c kitty_id with
      | none => rw [hq] at h; simp at h
      | some ow =>
        rw [hq] at h; dsimp only at h
        by_cases hbo : buyer = ow
        · rw [if_pos hbo] at h; simp at h
        · rw [if_neg hbo, hlist] at h
          dsimp only at h
          rw [if_neg hnot] at h
          simp at h
  · intro hle ow hown hne
    have hnot : ¬ c.free buyer > (amount + p.stakeForEachKitty) % 2 ^ p.balanceBits := by
      rw [hmod]; exact Nat.not_lt.mpr hle
    unfold buy
    rw [hown]
    dsimp only
    rw [if_neg hne, hlist]
    dsimp only
    rw [if_neg hnot]

/-- Witness input for C6: kitty 0 owned by 1, listed at 500; buyer 2 has free
balance 300, below 500 + 100. -/
def c6w : Chain :=
  { kittiesCount := some 1
    kitties := upd (fun _ => none) 0 (some dnaA)
    listForSale := upd (fun _ => none) 0 (some (some 500))
    owner := upd (fun _ => none) 0 (some 1)
    free := fun a => if a = 2 then 300 else 0
    reserved := fun a => if a = 1 then 100 else 0 }

/-- Witness for C6 at the concrete state `c6w`. -/
theorem buy_strict_balance_check_witness :
    buy p0 2 0 c6w = .error (.err .NotEnoughBalanceForBuying) :=
  (buy_strict_balance_check p0 2 0 500 c6w rfl (by decide)).2
    (by decide) 1 rfl (by decide)

/-! ## C7 — transfer does not touch the listing map -/

/-- C7: a successful `transfer` leaves the listing map entirely unchanged; a
listed asset stays listed at the same price under the new owner. -/
theorem transfer_preserves_listing (p : Params) (who new_owner : AccountId)
    (kitty_id : KittyIndex) (c c1 : Chain)
    (h : transfer p who new_owner kitty_id c = .ok c1) :
    c1.listForSale = c.listForSale := by
  unfold transfer at h
  by_cases hw : some who = getOwner c kitty_id
  · rw [if_pos hw] at h
    cases hr : Currency.reserve new_owner p.stakeForEachKitty c with
    | none => rw [hr] at h; simp at h
    | some cr =>
      rw [hr] at h
      dsimp only at h
      injection h with h1
      subst h1
      have hcr : cr.listForSale = c.listForSale := by
        unfold Currency.reserve at hr
        split at hr
        · injection hr with h2; subst h2; rfl
        · exact absurd hr (by simp)
      dsimp only [Currency.unreserve]
      exact hcr
  · rw [if_neg hw] at h; simp at h

/-- Witness input for C7: kitty 0 owned by 1 and listed at 777; account 2 can
cover the stake. -/
def c7w : Chain :=
  { kittiesCount := some 1
    kitties := upd (fun _ => none) 0 (some dnaA)
    listForSale := upd (fun _ => none) 0 (some (some 777))
    owner := upd (fun _ => none) 0 (some 1)
    free := fun _ => 1000
    reserved := fun a => if a = 1 then 100 else 0 }

/-- The state produced by the witness transfer for C7. -/
def c7r : Chain := ((transfer p0 1 2 0 c7w).toOption).getD c7w

/-- Witness for C7: the concrete transfer of kitty 0 from 1 to 2 succeeds and
keeps the listing map of `c7w` intact. -/
theorem transfer_preserves_listing_witness :
    transfer p0 1 2 0 c7w = Except.ok c7r ∧ c7r.listForSale = c7w.listForSale :=
  ⟨rfl, transfer_preserves_listing p0 1 2 0 c7w c7r rfl⟩

/-! ## C8 — transfer to self -/

/-- Counterexample input for C8: account 1 owns kitty 0 (its stake already
reserved) but has free balance 0, so it cannot re-reserve a second stake. -/
def c8x : Chain :=
  { kittiesCount := some 1
    kitties := upd (fun _ => none) 0 (some dnaA)
    listForSale := fun _ => none
    owner := upd (fun _ => none) 0 (some 1)
    free := fun _ => 0
    reserved := fun a => if a = 1 then 100 else 0 }

/-- Counterexample to C8 as stated: a self-transfer does not succeed for every
owner — the stake is re-reserved before the old one is released, so an owner
whose free balance is below `StakeForEachKitty` fails with
`NotEnoughBalanceForStaking`. -/
theorem transfer_self_counterexample :
    getOwner c8x 0 = some 1 ∧
    transfer p0 1 1 0 c8x = .error (.err .NotEnoughBalanceForStaking) :=
  ⟨rfl, rfl⟩

/-- C8 (amended): a self-transfer by an owner whose free balance covers the
stake succeeds, leaves the owner unchanged, and nets to zero change in every
account's free and reserved balances (the re-reserve and re-release cancel). -/
theorem transfer_self_amended (p : Params) (who : AccountId)
    (kitty_id : KittyIndex) (c : Chain)
    (hown : getOwner c kitty_id = some who)
    (hfree : p.stakeForEachKitty ≤ c.free who) :
    (dispatch (transfer p who who kitty_id) c).2 = none ∧
    ((dispatch (transfer p who who kitty_id) c).1).owner kitty_id = some who ∧
    (∀ a, ((dispatch (transfer p who who kitty_id) c).1).free a = c.free a) ∧
    (∀ a, ((dispatch (transfer p who who kitty_id) c).1).reserved a = c.reserved a) := by
  unfold dispatch transfer
  rw [hown, if_pos rfl]
  unfold Currency.reserve
  rw [if_pos hfree]
  dsimp only [Currency.unreserve, upd]
  refine ⟨rfl, by simp, ?_, ?_⟩
  · intro a
    by_cases ha : a = who
    · subst ha
      simp [Nat.min_eq_left (Nat.le_add_left _ _), Nat.sub_add_cancel hfree]
    · simp [ha]
  · intro a
    by_cases ha : a = who
    · subst ha
      simp [Nat.min_eq_left (Nat.le_add_left _ _)]
    · simp [ha]

/-- Witness input for C8 (amended): account 1 owns kitty 0 and holds free
balance 500, enough to re-reserve the stake of 100. -/
def c8w : Chain :=
  { kittiesCount := some 1
    kitties := upd (fun _ => none) 0 (some dnaA)
    listForSale := fun _ => none
    owner := upd (fun _ => none) 0 (some 1)
    free := fun _ => 500
    reserved := fun a => if a = 1 then 100 else 0 }

/-- Witness for C8 (amended): the concrete self-transfer of kitty 0 by
account 1 commits, the owner stays account 1, and account 1's balances are
unchanged. -/
theorem transfer_self_amended_witness :
    (dispatch (transfer p0 1 1 0) c8w).2 = none ∧
    ((dispatch (transfer p0 1 1 0) c8w).1).owner 0 = some 1 ∧
    ((dispatch (transfer p0 1 1 0) c8w).1).free 1 = c8w.free 1 ∧
    ((dispatch (transfer p0 1 1 0) c8w).1).reserved 1 = c8w.reserved 1 :=
  ⟨(transfer_self_amended p0 1 0 c8w rfl (by decide)).1,
   (transfer_self_amended p0 1 0 c8w rfl (by decide)).2.1,
   (transfer_self_amended p0 1 0 c8w rfl (by decide)).2.2.1 1,
   (transfer_self_amended p0 1 0 c8w rfl (by decide)).2.2.2 1⟩

/-! ## C9 — cross-map consistency is an invariant of all reachable states -/

/-- Helper: `Currency.reserve` touches only the balance fields. -/
theorem reserve_registry (who : AccountId) (amount : Balance) (c c1 : Chain)
    (h : Currency.reserve who amount c = some c1) :
    c1.kitties = c.kitties ∧ c1.owner = c.owner ∧
      c1.listForSale = c.listForSale ∧ c1.kittiesCount = c.kittiesCount := by
  unfold Currency.reserve at h
  split at h
  · injection h with h1; subst h1; exact ⟨rfl, rfl, rfl, rfl⟩
  · exact absurd h (by simp)

/-- Helper: `Currency.transfer` touches only the balance fields. -/
theorem currency_transfer_registry (p : Params) (src dst : AccountId)
    (amount : Balance) (c c1 : Chain)
    (h : Currency.transfer p src dst amount c = .ok c1) :
    c1.kitties = c.kitties ∧ c1.owner = c.owner ∧
      c1.listForSale = c.listForSale := by
  unfold Currency.transfer at h
  split at h
  · injection h with h1; subst h1; exact ⟨rfl, rfl, rfl⟩
  · exact absurd h (by simp)

/-- Helper: genesis states are consistent. -/
theorem init_consistent (free reserved : AccountId → Balance) :
    Consistent (initChain free reserved) :=
  ⟨fun id => by simp [initChain], fun id => by simp [initChain]⟩

/-- Helper: a successful mint preserves consistency — genome and owner are
written for the same fresh id, listings are untouched. -/
theorem new_kitty_consistent (p : Params) (who : AccountId) (dna : Dna)
    (c c1 : Chain) (hc : Consistent c)
    (h : new_kitty_with_stake p who dna c = .ok c1) : Consistent c1 := by
  unfold new_kitty_with_stake at h
  cases ha : allocate_id p c with
  | error e => rw [ha] at h; simp at h
  | ok kitty_id =>
    rw [ha] at h
    dsimp only at h
    cases hr : Currency.reserve who p.stakeForEachKitty c with
    | none => rw [hr] at h; simp at h
    | some cr =>
      rw [hr] at h
      dsimp only at h
      injection h with h1
      subst h1
      obtain ⟨hk, ho, hl, -⟩ := reserve_registry who p.stakeForEachKitty c cr hr
      obtain ⟨hoc, hlc⟩ := hc
      constructor
      · intro id
        dsimp only [upd]
        rw [hk, ho]
        by_cases hid : id = kitty_id
        · simp [hid]
        · simp only [if_neg hid]
          exact hoc id
      · intro id
        dsimp only [upd]
        rw [hk, hl]
        by_cases hid : id = kitty_id
        · simp [hid]
        · simp only [if_neg hid]
          exact hlc id

/-- Helper: a successful transfer preserves consistency — the rewritten owner
entry is for an id that already had an owner, hence a genome. -/
theorem transfer_consistent (p : Params) (who new_owner : AccountId)
    (kitty_id : KittyIndex) (c c1 : Chain) (hc : Consistent c)
    (h : transfer p who new_owner kitty_id c = .ok c1) : Consistent c1 := by
  unfold transfer at h
  by_cases hw : some who = getOwner c kitty_id
  · rw [if_pos hw] at h
    cases hr : Currency.reserve new_owner p.stakeForEachKitty c with
    | none => rw [hr] at h; simp at h
    | some cr =>
      rw [hr] at h
      dsimp only at h
      injection h with h1
      subst h1
      obtain ⟨hk, ho, hl, -⟩ := reserve_registry _ _ _ _ hr
      obtain ⟨hoc, hlc⟩ := hc
      unfold getOwner at hw
      have hks : (c.kitties kitty_id).isSome :=
        (hoc kitty_id).mp (by rw [← hw]; rfl)
      constructor
      · intro id
        dsimp only [Currency.unreserve, upd]
        rw [hk, ho]
        by_cases hid : id = kitty_id
        · subst hid
          simp [hks]
        · simp only [if_neg hid]
          exact hoc id
      · intro id
        dsimp only [Currency.unreserve, upd]
        rw [hk, hl]
        exact hlc id
  · rw [if_neg hw] at h; simp at h

/-- Helper: a successful breed preserves consistency (it ends in the mint
sequence). -/
theorem breed_consistent (p : Params) (who : AccountId) (id1 id2 : KittyIndex)
    (sel : Dna) (c c1 : Chain) (hc : Consistent c)
    (h : breed p who id1 id2 sel c = .ok c1) : Consistent c1 := by
  unfold breed at h
  by_cases h12 : id1 = id2
  · rw [if_pos h12] at h; simp at h
  · rw [if_neg h12] at h
    cases hk1 : c.kitties id1 with
    | none => rw [hk1] at h; simp at h
    | some d1 =>
      rw [hk1] at h
      dsimp only at h
      cases hk2 : c.kitties id2 with
      | none => rw [hk2] at h; simp at h
      | some d2 =>
        rw [hk2] at h
        dsimp only at h
        exact new_kitty_consistent p who _ c c1 hc h

/-- Helper: a successful sell preserves consistency — the listing entry is
written for an id whose owner (hence genome) exists. -/
theorem sell_consistent (who : AccountId) (kitty_id : KittyIndex)
    (price : Option Balance) (c c1 : Chain) (hc : Consistent c)
    (h : sell who kitty_id price c = .ok c1) : Consistent c1 := by
  unfold sell at h
  by_cases hw : some who = getOwner c kitty_id
  · rw [if_pos hw] at h
    injection h with h1
    subst h1
    obtain ⟨hoc, hlc⟩ := hc
    unfold getOwner at hw
    have hks : (c.kitties kitty_id).isSome :=
      (hoc kitty_id).mp (by rw [← hw]; rfl)
    constructor
    · exact hoc
    · intro id
      dsimp only [upd]
      by_cases hid : id = kitty_id
      · subst hid; simp [hks]
      · simp only [if_neg hid]
        exact hlc id
  · rw [if_neg hw] at h; simp at h

/-- Helper: a successful buy preserves consistency — the owner entry is
rewritten for an id that had an owner, and the listing entry is removed. -/
theorem buy_consistent (p : Params) (buyer : AccountId) (kitty_id : KittyIndex)
    (c c1 : Chain) (hc : Consistent c) (h : buy p buyer kitty_id c = .ok c1) :
    Consistent c1 := by
  unfold buy at h
  cases hq : getOwner c kitty_id with
  | none => rw [hq] at h; simp at h
  | some ow =>
    rw [hq] at h
    dsimp only at h
    by_cases hbo : buyer = ow
    · rw [if_pos hbo] at h; simp at h
    · rw [if_neg hbo] at h
      cases hl : getListing c kitty_id with
      | none => rw [hl] at h; simp at h
      | some amount =>
        rw [hl] at h
        dsimp only at h
        by_cases hchk :
            c.free buyer > (amount + p.stakeForEachKitty) % 2 ^ p.balanceBits
        · rw [if_pos hchk] at h
          cases hr : Currency.reserve buyer p.stakeForEachKitty c with
          | none => rw [hr] at h; simp at h
          | some cr =>
            rw [hr] at h
            dsimp only at h
            cases ht : Currency.transfer p buyer ow amount
                (Currency.unreserve ow p.stakeForEachKitty cr) with
            | error e => rw [ht] at h; simp at h
            | ok c3 =>
              rw [ht] at h
              dsimp only at h
              injection h with h1
              subst h1
              obtain ⟨hk, ho, hl2, -⟩ := reserve_registry _ _ _ _ hr
              obtain ⟨hk3, ho3, hl3⟩ := currency_transfer_registry _ _ _ _ _ _ ht
              obtain ⟨hoc, hlc⟩ := hc
              have hks : (c.kitties kitty_id).isSome :=
                (hoc kitty_id).mp (by unfold getOwner at hq; rw [hq]; rfl)
              have hk' : c3.kitties = c.kitties := by rw [hk3]; exact hk
              have ho' : c3.owner = c.owner := by rw [ho3]; exact ho
              have hl' : c3.listForSale = c.listForSale := by rw [hl3]; exact hl2
              constructor
              · intro id
                dsimp only [upd]
                rw [hk', ho']
                by_cases hid : id = kitty_id
                · subst hid; simp [hks]
                · simp only [if_neg hid]
                  exact hoc id
              · intro id
                dsimp only [upd]
                rw [hk', hl']
                by_cases hid : id = kitty_id
                · subst hid; simp
                · simp only [if_neg hid]
                  exact hlc id
        · rw [if_neg hchk] at h; simp at h

/-- C9: every state reachable from genesis by the five operations satisfies
the cross-map consistency invariant: an id has an owner entry iff it has a
genome entry, and listing entries exist only for ids with a genome. -/
theorem reachable_consistent (p : Params) (c : Chain) (h : Reachable p c) :
    Consistent c := by
  induction h with
  | init free reserved => exact init_consistent free reserved
  | step_create c c1 who dna _ hok ih =>
      exact new_kitty_consistent p who dna c c1 ih hok
  | step_transfer c c1 who new_owner kitty_id _ hok ih =>
      exact transfer_consistent p who new_owner kitty_id c c1 ih hok
  | step_breed c c1 who id1 id2 sel _ hok ih =>
      exact breed_consistent p who id1 id2 sel c c1 ih hok
  | step_sell c c1 who kitty_id price _ hok ih =>
      exact sell_consistent who kitty_id price c c1 ih hok
  | step_buy c c1 buyer kitty_id _ hok ih =>
      exact buy_consistent p buyer kitty_id c c1 ih hok

/-- Witness for C9: the genesis state where all accounts hold 1000 free is
reachable and consistent. -/
theorem reachable_consistent_witness : Consistent cEmpty :=
  reachable_consistent p0 cEmpty (Reachable.init (fun _ => 1000) (fun _ => 0))

end Kitties
